import Mathlib

/-
Verification of the image-editor engine (src/image_editor.py) against its
natural-language specification.

Shallow embedding conventions:
* A PIL image is modelled as `Img`: a width, a height, and a total pixel
  function returning an RGBA quadruple of naturals (8-bit values in the code).
  `Image.copy()` has value semantics here, so copies are just the value itself.
* Python floats on the coordinate path are modelled as exact rationals; every
  concrete value used below (halves of integers, small products) is exactly
  representable in binary floating point, so this is faithful on those inputs.
* Python `int(x)` (truncation toward zero) is `pyInt`.
* The editor session state (current image, undo stack, redo stack, zoom) is
  `EditorState`; Python `list.append`/`pop` at the end of the list is modelled
  with the head of a Lean list as the top of the stack, so `undo_stack[-1]`
  is `List.head?`.
* Fallible operations return the unchanged state together with `false`.
-/

/-- One RGBA pixel; channels are 8-bit values in the source. -/
structure Pixel where
  r : Nat
  g : Nat
  b : Nat
  a : Nat
deriving DecidableEq

/-- An image buffer: dimensions plus a total pixel function (only the values
at coordinates below the dimensions are meaningful). -/
structure Img where
  w : Nat
  h : Nat
  pix : Nat → Nat → Pixel

/-- Pixel-equality of two images: same dimensions and equal pixels at every
in-bounds coordinate. -/
def Img.pixEq (a b : Img) : Prop :=
  a.w = b.w ∧ a.h = b.h ∧ ∀ x, x < a.w → ∀ y, y < a.h → a.pix x y = b.pix x y

instance (a b : Img) : Decidable (a.pixEq b) := by
  unfold Img.pixEq
  infer_instance

/-- Pixel-equality lifted to optional images (no image = no image). -/
def optPixEq : Option Img → Option Img → Prop
  | some a, some b => a.pixEq b
  | none, none => True
  | _, _ => False

instance : (a b : Option Img) → Decidable (optPixEq a b)
  | some _, some _ => inferInstanceAs (Decidable (Img.pixEq _ _))
  | none, none => .isTrue trivial
  | some _, none => .isFalse fun h => h
  | none, some _ => .isFalse fun h => h

/-- Modelled from the spec: PIL's RGB-to-luminance conversion used by
img.convert("L") (the ITU-R 601-2 fixed-point formula of the external PIL
library, which is not part of src/); the spec calls this the luminance
conversion. -/
def lum (r g b : Nat) : Nat := (r * 19595 + g * 38470 + b * 7471) / 65536

/-- Embeds apply_filter's Grayscale branch: img.convert("L").convert("RGB").
The result is a mode-RGB image (three equal channels); it carries no alpha
plane, and when re-expanded to RGBA (as pil2pixmap's convert("RGBA") does for
display) every pixel is fully opaque, hence alpha 255 here. -/
def grayscaleF (img : Img) : Img :=
  ⟨img.w, img.h, fun x y =>
    let p := img.pix x y
    let l := lum p.r p.g p.b
    ⟨l, l, l, 255⟩⟩

/-- Embeds the sepia lookup table of apply_filter's Sepia branch:
for i in range(255): sepia.append((int(i*240/255), int(i*200/255),
int(i*145/255))). Note the source iterates range(255), producing entries for
indices 0..254 only. Nat division is Python int() on these nonnegative
values. -/
def sepiaTable : List (Nat × Nat × Nat) :=
  (List.range 255).map fun i => (i * 240 / 255, i * 200 / 255, i * 145 / 255)

/-- Embeds the lookup sepia[p] performed by img.point(lambda p: sepia[p]);
an out-of-range index (Python IndexError) is `none`. -/
def sepiaLookup (l : Nat) : Option (Nat × Nat × Nat) := sepiaTable[l]?

/-- Python int() applied to a float: truncation toward zero. -/
def pyInt (q : ℚ) : ℤ := if 0 ≤ q then ⌊q⌋ else ⌈q⌉

/-- The editor session state: current image, undo stack, redo stack, zoom
factor (the head of each list is the top of the Python list, i.e. index -1). -/
structure EditorState where
  current : Option Img
  undoStack : List Img
  redoStack : List Img
  zoom : ℚ

/-- The state created in ImageEditor.__init__: no image, empty stacks,
zoom 1.0. -/
def initState : EditorState := ⟨none, [], [], 1⟩

/-- Embeds the success path of open_image: current = opened image,
undo_stack = [copy], redo_stack = [], zoom_factor = 1.0; the prior state is
discarded entirely. -/
def openImage (img : Img) (_s : EditorState) : EditorState :=
  ⟨some img, [img], [], 1⟩

/-- Embeds push_undo: if an image is loaded, append a copy of it to the undo
stack and clear the redo stack; otherwise do nothing. -/
def pushUndo (s : EditorState) : EditorState :=
  match s.current with
  | some c => ⟨some c, c :: s.undoStack, [], s.zoom⟩
  | none => s

/-- The common shape of resize_image, advanced_rotate, flip_horizontal,
flip_vertical, adjust_colors and apply_filter: when an image is loaded,
push_undo() and then replace current_image with f(current_image); when none
is loaded, only a warning is shown. -/
def editStep (f : Img → Img) (s : EditorState) : EditorState :=
  match s.current with
  | some c => ⟨some (f c), c :: s.undoStack, [], s.zoom⟩
  | none => s

/-- Embeds apply_drawing: when an image is loaded (and strokes exist), the
captured strokes are rasterized directly onto current_image via
ImageDraw.Draw — with no push_undo call, so both stacks are untouched. The
rasterizer itself (PIL's draw.line) is external to src/, so it is passed in
as f. -/
def drawStep (f : Img → Img) (s : EditorState) : EditorState :=
  match s.current with
  | some c => ⟨some (f c), s.undoStack, s.redoStack, s.zoom⟩
  | none => s

/-- Embeds undo: if len(undo_stack) > 1, move the popped top onto the redo
stack and set current_image to a copy of the new top (undo_stack[-1]);
otherwise report "No more actions to undo" (`false`) and change nothing. -/
def undoStep (s : EditorState) : EditorState × Bool :=
  match s.undoStack with
  | top :: next :: rest =>
      (⟨some next, next :: rest, top :: s.redoStack, s.zoom⟩, true)
  | _ => (s, false)

/-- Embeds redo: if the redo stack is nonempty, set current_image to a copy
of its popped top and append a copy of that to the undo stack; otherwise
report "No actions to redo" (`false`) and change nothing. -/
def redoStep (s : EditorState) : EditorState × Bool :=
  match s.redoStack with
  | r :: rest => (⟨some r, r :: s.undoStack, rest, s.zoom⟩, true)
  | [] => (s, false)

/-- Width of the current image (0 when none is loaded). -/
def currentW (s : EditorState) : Nat :=
  match s.current with
  | some c => c.w
  | none => 0

/-- Height of the current image (0 when none is loaded). -/
def currentH (s : EditorState) : Nat :=
  match s.current with
  | some c => c.h
  | none => 0

/-- Viewport geometry at the moment of a crop or drawing commit: label
(container) size and displayed-pixmap size, in Qt integer pixels. -/
structure ViewGeom where
  labelW : ℤ
  labelH : ℤ
  pixW : ℤ
  pixH : ℤ

/-- A viewport-space rectangle (QRect as x, y, width, height). -/
structure RectI where
  x : ℤ
  y : ℤ
  w : ℤ
  h : ℤ

/-- Centering offset on x: (label_size.width() - pixmap_size.width()) / 2. -/
def offX (g : ViewGeom) : ℚ := ((g.labelW : ℚ) - (g.pixW : ℚ)) / 2

/-- Centering offset on y: (label_size.height() - pixmap_size.height()) / 2. -/
def offY (g : ViewGeom) : ℚ := ((g.labelH : ℚ) - (g.pixH : ℚ)) / 2

/-- Offset-corrected rectangle corner x: rect.x() - offset_x. -/
def vx (g : ViewGeom) (r : RectI) : ℚ := (r.x : ℚ) - offX g

/-- Offset-corrected rectangle corner y: rect.y() - offset_y. -/
def vy (g : ViewGeom) (r : RectI) : ℚ := (r.y : ℚ) - offY g

/-- Scale factor scale_x = img_w / pixmap_size.width(). -/
def scX (g : ViewGeom) (imW : Nat) : ℚ := (imW : ℚ) / (g.pixW : ℚ)

/-- Scale factor scale_y = img_h / pixmap_size.height(). -/
def scY (g : ViewGeom) (imH : Nat) : ℚ := (imH : ℚ) / (g.pixH : ℚ)

/-- A point (px, py) lies outside the closed box [0, bw] × [0, bh]. -/
def outsideBox (px py bw bh : ℚ) : Prop :=
  px < 0 ∨ bw < px ∨ py < 0 ∨ bh < py

instance (px py bw bh : ℚ) : Decidable (outsideBox px py bw bh) := by
  unfold outsideBox
  infer_instance

/-- Some corner of the offset-corrected rectangle lies outside the displayed
bitmap box [0, pixW] × [0, pixH]. -/
def cornerOutside (g : ViewGeom) (r : RectI) : Prop :=
  outsideBox (vx g r) (vy g r) (g.pixW : ℚ) (g.pixH : ℚ) ∨
  outsideBox (vx g r + (r.w : ℚ)) (vy g r) (g.pixW : ℚ) (g.pixH : ℚ) ∨
  outsideBox (vx g r) (vy g r + (r.h : ℚ)) (g.pixW : ℚ) (g.pixH : ℚ) ∨
  outsideBox (vx g r + (r.w : ℚ)) (vy g r + (r.h : ℚ)) (g.pixW : ℚ) (g.pixH : ℚ)

instance (g : ViewGeom) (r : RectI) : Decidable (cornerOutside g r) := by
  unfold cornerOutside
  infer_instance

/-- The rejection test of crop_image: x < 0 or y < 0 or
(x + rect.width()) > pixmap_size.width() or
(y + rect.height()) > pixmap_size.height(). -/
def cropReject (g : ViewGeom) (r : RectI) : Prop :=
  vx g r < 0 ∨ vy g r < 0 ∨
  (g.pixW : ℚ) < vx g r + (r.w : ℚ) ∨ (g.pixH : ℚ) < vy g r + (r.h : ℚ)

instance (g : ViewGeom) (r : RectI) : Decidable (cropReject g r) := by
  unfold cropReject
  infer_instance

/-- The crop box of crop_image: (int(x*scale_x), int(y*scale_y),
int((x+rect.width())*scale_x), int((y+rect.height())*scale_y)). -/
def cropBoxOf (g : ViewGeom) (r : RectI) (imW imH : Nat) : ℤ × ℤ × ℤ × ℤ :=
  (pyInt (vx g r * scX g imW), pyInt (vy g r * scY g imH),
   pyInt ((vx g r + (r.w : ℚ)) * scX g imW),
   pyInt ((vy g r + (r.h : ℚ)) * scY g imH))

/-- Modelled from the spec: PIL Image.crop (external to src/) — the result
dimensions equal the box width/height (right - left, bottom - top) and the
pixels are sampled from the source at the box offset. -/
def pilCrop (c : Img) : ℤ × ℤ × ℤ × ℤ → Img
  | (l, t, rt, b) =>
      ⟨(rt - l).toNat, (b - t).toNat,
       fun x y => c.pix (l + x).toNat (t + y).toNat⟩

/-- Embeds crop_image: return unchanged (reporting `false`) when no pixmap
is displayed; otherwise reject the rectangle and return unchanged when the
bounds test fails; otherwise map the rectangle to the crop box, push_undo,
and replace current_image with the cropped image. -/
def cropImage (g : ViewGeom) (r : RectI) (s : EditorState) : EditorState × Bool :=
  match s.current with
  | none => (s, false)
  | some c =>
      if cropReject g r then (s, false)
      else (⟨some (pilCrop c (cropBoxOf g r c.w c.h)),
             c :: s.undoStack, [], s.zoom⟩, true)

/-- Embeds the per-point conversion of apply_drawing:
x = (point.x() - offset_x) * scale_x, y = (point.y() - offset_y) * scale_y,
appended to the path as-is — no int() truncation is applied. -/
def strokePointMap (g : ViewGeom) (imW imH : Nat) (px py : ℤ) : ℚ × ℚ :=
  (((px : ℚ) - offX g) * scX g imW, ((py : ℚ) - offY g) * scY g imH)

/-- Modelled from the spec: PIL Image.rotate (external to src/) is a
counter-clockwise-positive rotation with expand=True; restricted here to an
exact counter-clockwise quarter turn, the pixel permutation with
out(x, y) = in(w - 1 - y, x) on a w × h input (result is h × w). -/
def rotCCW90 (img : Img) : Img :=
  ⟨img.h, img.w, fun x y => img.pix (img.w - 1 - y) x⟩

/-- An exact half turn: out(x, y) = in(w - 1 - x, h - 1 - y). -/
def rot180 (img : Img) : Img :=
  ⟨img.w, img.h, fun x y => img.pix (img.w - 1 - x) (img.h - 1 - y)⟩

/-- An exact clockwise quarter turn: out(x, y) = in(y, h - 1 - x) on a
w × h input (result is h × w). -/
def rotCW90 (img : Img) : Img :=
  ⟨img.h, img.w, fun x y => img.pix y (img.h - 1 - x)⟩

/-- Modelled from the spec: PIL Image.rotate(angle, expand=True) for angles
that are whole multiples of 90 degrees, counter-clockwise positive, reduced
modulo 360. -/
def pilRotateQuarter (angle : ℤ) (img : Img) : Img :=
  if angle % 360 = 90 then rotCCW90 img
  else if angle % 360 = 180 then rot180 img
  else if angle % 360 = 270 then rotCW90 img
  else img

/-- Embeds advanced_rotate's transformation of the current image:
current_image.rotate(-angle, expand=True) — the source negates the entered
angle so that a positive input rotates visually clockwise. -/
def advancedRotate (angle : ℤ) (img : Img) : Img :=
  pilRotateQuarter (-angle) img

/-- The user-visible events that touch the session state. The image-to-image
functions carried by edit and draw events stand for the PIL primitives
(resize, rotate, flips, enhancers, filters, stroke rasterization), which are
external to src/. -/
inductive Ev where
  | load (img : Img)
  | edit (f : Img → Img)
  | draw (f : Img → Img)
  | cropEv (g : ViewGeom) (r : RectI)
  | undoEv
  | redoEv
  | zoomInEv
  | zoomOutEv

/-- One step of the session: dispatches an event to the corresponding
handler of the source. zoom_in multiplies by 1.25 and zoom_out divides by
1.25 (exact in binary floating point, modelled as rationals). -/
def step (s : EditorState) (e : Ev) : EditorState :=
  match e with
  | .load img => openImage img s
  | .edit f => editStep f s
  | .draw f => drawStep f s
  | .cropEv g r => (cropImage g r s).1
  | .undoEv => (undoStep s).1
  | .redoEv => (redoStep s).1
  | .zoomInEv => ⟨s.current, s.undoStack, s.redoStack, s.zoom * (5 / 4)⟩
  | .zoomOutEv => ⟨s.current, s.undoStack, s.redoStack, s.zoom / (5 / 4)⟩

/-- Runs a list of events from a state. -/
def stepFold (s : EditorState) (evs : List Ev) : EditorState :=
  evs.foldl step s

/-- A concrete 1 × 1 test image with one distinctive pixel. -/
def imgA : Img := ⟨1, 1, fun _ _ => ⟨10, 20, 30, 255⟩⟩

/-- A concrete 100 × 100 test image whose pixel values encode their
coordinates. -/
def img100 : Img := ⟨100, 100, fun x y => ⟨x % 256, y % 256, 0, 255⟩⟩

/-- A concrete 1 × 1 test image with a partially transparent pixel. -/
def imgAlpha : Img := ⟨1, 1, fun _ _ => ⟨10, 20, 30, 7⟩⟩

/-- Modelled from the spec: one concrete instance of stroke rasterization
(PIL ImageDraw.line is external to src/) — a stroke through the origin
painting pixel (0, 0) with the default blue brush. -/
def paintOrigin (c : Img) : Img :=
  ⟨c.w, c.h, fun x y => if x = 0 ∧ y = 0 then ⟨0, 0, 255, 255⟩ else c.pix x y⟩

/-
Helper lemmas shared by the claim theorems below.
-/

theorem crop_corner_reject (g : ViewGeom) (r : RectI)
    (hw : 0 ≤ r.w) (hh : 0 ≤ r.h) (hout : cornerOutside g r) :
    cropReject g r := by
  have hw2 : (0 : ℚ) ≤ (r.w : ℚ) := by exact_mod_cast hw
  have hh2 : (0 : ℚ) ≤ (r.h : ℚ) := by exact_mod_cast hh
  unfold cornerOutside outsideBox at hout
  unfold cropReject
  rcases hout with (h | h | h | h) | (h | h | h | h) | (h | h | h | h) | (h | h | h | h) <;>
    first
      | exact Or.inl (by linarith)
      | exact Or.inr (Or.inl (by linarith))
      | exact Or.inr (Or.inr (Or.inl (by linarith)))
      | exact Or.inr (Or.inr (Or.inr (by linarith)))

theorem cropImage_accept (g : ViewGeom) (r : RectI) (s : EditorState)
    (c : Img) (hc : s.current = some c) (hrej : ¬ cropReject g r) :
    cropImage g r s
      = (⟨some (pilCrop c (cropBoxOf g r c.w c.h)),
          c :: s.undoStack, [], s.zoom⟩, true) := by
  simp only [cropImage, hc]
  rw [if_neg hrej]

theorem undoStep_single (s : EditorState) (h : s.undoStack.length = 1) :
    undoStep s = (s, false) := by
  obtain ⟨cur, un, re, zo⟩ := s
  obtain ⟨a, ha⟩ := List.length_eq_one.mp h
  simp only at ha
  subst ha
  rfl

theorem step_undo_len (s : EditorState) (e : Ev) (h : 1 ≤ s.undoStack.length) :
    1 ≤ (step s e).undoStack.length := by
  cases e with
  | load img => simp [step, openImage]
  | edit f =>
      cases hc : s.current with
      | none => simpa [step, editStep, hc] using h
      | some c => simp [step, editStep, hc]
  | draw f =>
      cases hc : s.current with
      | none => simpa [step, drawStep, hc] using h
      | some c => simpa [step, drawStep, hc] using h
  | cropEv g r =>
      cases hc : s.current with
      | none => simpa [step, cropImage, hc] using h
      | some c =>
          by_cases hrej : cropReject g r
          · simpa [step, cropImage, hc, hrej] using h
          · simp [step, cropImage, hc, hrej]
  | undoEv =>
      match hs : s.undoStack with
      | [] => simp [hs] at h
      | [a] => simp [step, undoStep, hs]
      | a :: b :: t => simp [step, undoStep, hs]
  | redoEv =>
      match hs : s.redoStack with
      | [] => simpa [step, redoStep, hs] using h
      | r :: t => simp [step, redoStep, hs]
  | zoomInEv => simpa [step] using h
  | zoomOutEv => simpa [step] using h

theorem stepFold_undo_len (evs : List Ev) :
    ∀ s : EditorState, 1 ≤ s.undoStack.length →
      1 ≤ (stepFold s evs).undoStack.length := by
  induction evs with
  | nil => intro s h; exact h
  | cons e t ih =>
      intro s h
      exact ih (step s e) (step_undo_len s e h)

/-- C1: after a successful load of imgA and exactly one snapshot-then-mutate
edit (apply_filter Grayscale), undo() restores the pre-mutation buffer as
claimed; but redo() immediately afterwards again yields the PRE-mutation
buffer, not the post-mutation one, because undo moved the pre-mutation
snapshot (not the current image) onto the redo stack, losing the
post-mutation buffer. This evaluates the code at the failing input of the
redo half of the claim. -/
theorem C1_redo_restores_premutation :
    optPixEq ((undoStep (editStep grayscaleF (openImage imgA initState))).1).current
      (some imgA) ∧
    optPixEq ((redoStep (undoStep (editStep grayscaleF (openImage imgA initState))).1).1).current
      (some imgA) ∧
    ¬ optPixEq ((redoStep (undoStep (editStep grayscaleF (openImage imgA initState))).1).1).current
      (some (grayscaleF imgA)) := by decide

set_option maxRecDepth 4000 in
/-- C2: the sepia lookup table of apply_filter is built with range(255) and
so has 255 entries (indices 0..254), not the 256 the claim states; looking
up the luminance of a pure-white pixel (255) is out of range (IndexError in
the source), instead of yielding (240, 200, 145); pure black still maps to
(0, 0, 0), and in-range entries do follow the floor(L*240/255) formula, as
entry 254 shows. -/
theorem C2_sepia_table_off_by_one :
    sepiaTable.length = 255 ∧
    sepiaLookup (lum 255 255 255) = none ∧
    sepiaLookup (lum 0 0 0) = some (0, 0, 0) ∧
    sepiaLookup 254 = some (239, 199, 144) := by decide

/-- C9 counterexample: the Grayscale filter does not preserve the alpha
channel — on a 1 × 1 image whose pixel has alpha 7, the output pixel's alpha
is 255 (convert("L").convert("RGB") drops the alpha plane and the result is
fully opaque), so it differs from the input alpha. -/
theorem C9_counterexample :
    ((grayscaleF imgAlpha).pix 0 0).a ≠ (imgAlpha.pix 0 0).a := by decide

/-- C9 amended: for every image and every in-bounds pixel, the Grayscale
filter produces three equal channels holding the luminance of the input
pixel and leaves the dimensions unchanged; but the alpha channel is not
preserved — it is discarded (the output is mode RGB, fully opaque, alpha
255 once re-expanded for display). -/
theorem C9_grayscale_channels (img : Img) (x y : Nat)
    (_hx : x < img.w) (_hy : y < img.h) :
    ((grayscaleF img).pix x y).r
        = lum (img.pix x y).r (img.pix x y).g (img.pix x y).b ∧
    ((grayscaleF img).pix x y).g = ((grayscaleF img).pix x y).r ∧
    ((grayscaleF img).pix x y).b = ((grayscaleF img).pix x y).r ∧
    ((grayscaleF img).pix x y).a = 255 ∧
    (grayscaleF img).w = img.w ∧ (grayscaleF img).h = img.h :=
  ⟨rfl, rfl, rfl, rfl, rfl, rfl⟩

/-- C9 witness: the amended grayscale theorem applied to the concrete image
imgAlpha at its pixel (0, 0). -/
theorem C9_witness :
    ((grayscaleF imgAlpha).pix 0 0).r
        = lum (imgAlpha.pix 0 0).r (imgAlpha.pix 0 0).g (imgAlpha.pix 0 0).b ∧
    ((grayscaleF imgAlpha).pix 0 0).g = ((grayscaleF imgAlpha).pix 0 0).r ∧
    ((grayscaleF imgAlpha).pix 0 0).b = ((grayscaleF imgAlpha).pix 0 0).r ∧
    ((grayscaleF imgAlpha).pix 0 0).a = 255 ∧
    (grayscaleF imgAlpha).w = imgAlpha.w ∧ (grayscaleF imgAlpha).h = imgAlpha.h :=
  C9_grayscale_channels imgAlpha 0 0 (by decide) (by decide)

/-- C10: after every successful image load the zoom factor is exactly 1.0,
whatever the prior state (open_image assigns zoom_factor = 1.0
unconditionally on its success path). -/
theorem C10_zoom_reset (img : Img) (s : EditorState) :
    (openImage img s).zoom = 1 := rfl

/-- C3 counterexample: stroke rasterization (apply_drawing) mutates the
current image with no snapshot — after loading imgA, committing a drawing
changes the current image while leaving both the undo and redo stacks
exactly as they were, so a mutation of the current image happens without
any snapshot being pushed. -/
theorem C3_counterexample :
    ¬ optPixEq (drawStep paintOrigin (openImage imgA initState)).current
        (openImage imgA initState).current ∧
    (drawStep paintOrigin (openImage imgA initState)).undoStack
        = (openImage imgA initState).undoStack ∧
    (drawStep paintOrigin (openImage imgA initState)).redoStack
        = (openImage imgA initState).redoStack :=
  ⟨by decide, rfl, rfl⟩

/-- C3 amended: every mutating operation on the current image except stroke
rasterization — resize, rotate, the flips, color adjustment, the filters
(all of shape editStep), and crop on its success path — pushes exactly one
snapshot of the pre-mutation image onto the undo stack and clears the redo
stack immediately before mutating; apply_drawing (drawStep), however,
mutates the current image without pushing any snapshot, leaving both stacks
unchanged. -/
theorem C3_snapshot_discipline (f : Img → Img) (s : EditorState) (c : Img)
    (hc : s.current = some c) :
    editStep f s = ⟨some (f c), c :: s.undoStack, [], s.zoom⟩ ∧
    (drawStep f s).current = some (f c) ∧
    (drawStep f s).undoStack = s.undoStack ∧
    (drawStep f s).redoStack = s.redoStack ∧
    ∀ g r, ¬ cropReject g r →
      (cropImage g r s).1.undoStack = c :: s.undoStack ∧
      (cropImage g r s).1.redoStack = [] := by
  refine ⟨?_, ?_, ?_, ?_, ?_⟩
  · simp only [editStep, hc]
  · simp only [drawStep, hc]
  · simp only [drawStep, hc]
  · simp only [drawStep, hc]
  · intro g r hrej
    rw [cropImage_accept g r s c hc hrej]
    exact ⟨rfl, rfl⟩

/-- C3 witness: the amended snapshot-discipline theorem applied at the
concrete loaded state and the concrete stroke rasterizer. -/
theorem C3_witness :
    (drawStep paintOrigin (openImage imgA initState)).undoStack
      = (openImage imgA initState).undoStack :=
  (C3_snapshot_discipline paintOrigin (openImage imgA initState) imgA rfl).2.2.1

/-- C4: for every crop rectangle with nonnegative width and height (as
QRect.normalized guarantees), if after subtracting the centering offsets any
corner of the rectangle falls outside [0, displayed width] × [0, displayed
height], crop_image rejects the crop and returns with the current image and
both history stacks unmodified. -/
theorem C4_crop_rejects_out_of_bounds (g : ViewGeom) (r : RectI)
    (s : EditorState) (hw : 0 ≤ r.w) (hh : 0 ≤ r.h)
    (hout : cornerOutside g r) :
    cropImage g r s = (s, false) := by
  have hrej := crop_corner_reject g r hw hh hout
  cases hc : s.current with
  | none => simp [cropImage, hc]
  | some c => simp [cropImage, hc, hrej]

/-- C4 witness: the rejection theorem applied at a concrete loaded state
and a rectangle whose left edge maps 5 pixels left of the displayed bitmap. -/
theorem C4_witness :
    cropImage ⟨100, 100, 100, 100⟩ ⟨-5, 10, 20, 20⟩ (openImage img100 initState)
      = (openImage img100 initState, false) :=
  C4_crop_rejects_out_of_bounds ⟨100, 100, 100, 100⟩ ⟨-5, 10, 20, 20⟩
    (openImage img100 initState) (by decide) (by decide)
    (by unfold cornerOutside outsideBox vx vy offX offY; push_cast; norm_num)

/-- C5: (a) in every state reachable by any event sequence after a
successful load, the undo stack keeps at least one entry (the initial
snapshot is never evicted); (b) undo() when only one entry remains is a
no-op reported as nothing-to-undo (`false`) that changes nothing; and
(c) repeating undo any number of times from such a state never changes the
state. -/
theorem C5_undo_stack_floor :
    (∀ (s0 : EditorState) (img : Img) (evs : List Ev),
        1 ≤ (stepFold (step s0 (Ev.load img)) evs).undoStack.length) ∧
    (∀ s : EditorState, s.undoStack.length = 1 → undoStep s = (s, false)) ∧
    (∀ (s : EditorState) (n : Nat), s.undoStack.length = 1 →
        (fun t => (undoStep t).1)^[n] s = s) := by
  refine ⟨?_, undoStep_single, ?_⟩
  · intro s0 img evs
    exact stepFold_undo_len evs (step s0 (Ev.load img)) (by simp [step, openImage])
  · intro s n h
    induction n with
    | zero => rfl
    | succ k ih =>
        rw [Function.iterate_succ_apply]
        have h1 : (undoStep s).1 = s := by rw [undoStep_single s h]
        rw [h1]
        exact ih

/-- C5 witness: the floor theorem applied at the concrete freshly loaded
state, whose undo stack holds exactly the initial snapshot. -/
theorem C5_witness :
    undoStep (openImage imgA initState) = (openImage imgA initState, false) :=
  C5_undo_stack_floor.2.1 (openImage imgA initState) rfl

/-- C6 counterexample: crop_image performs no InvalidRegion check — a
zero-width rectangle that passes the bounds test (here a 0 × 5 rectangle at
(10, 10) on a 100 × 100 image displayed 1:1) is cropped successfully
(`true`) and produces a current image of width 0. -/
theorem C6_counterexample :
    (cropImage ⟨100, 100, 100, 100⟩ ⟨10, 10, 0, 5⟩ (openImage img100 initState)).2
      = true ∧
    currentW (cropImage ⟨100, 100, 100, 100⟩ ⟨10, 10, 0, 5⟩
      (openImage img100 initState)).1 = 0 := by
  have hrej : ¬ cropReject ⟨100, 100, 100, 100⟩ ⟨10, 10, 0, 5⟩ := by
    unfold cropReject vx vy offX offY
    push_cast
    norm_num
  rw [cropImage_accept ⟨100, 100, 100, 100⟩ ⟨10, 10, 0, 5⟩
    (openImage img100 initState) img100 rfl hrej]
  refine ⟨rfl, ?_⟩
  simp only [currentW]
  unfold cropBoxOf pilCrop vx vy offX offY scX scY pyInt
  push_cast
  norm_num

/-- C6 amended: crop_image never fails with InvalidRegion — it performs no
width/height validation at all; whenever the (normalized, hence
nonnegative-size) rectangle has zero width and passes the bounds test, the
crop is performed successfully and the resulting image has width 0, and
symmetrically a zero-height rectangle yields height 0. -/
theorem C6_zero_size_crop (g : ViewGeom) (r : RectI) (s : EditorState)
    (c : Img) (hc : s.current = some c) (hrej : ¬ cropReject g r) :
    (cropImage g r s).2 = true ∧
    (r.w = 0 → currentW (cropImage g r s).1 = 0) ∧
    (r.h = 0 → currentH (cropImage g r s).1 = 0) := by
  rw [cropImage_accept g r s c hc hrej]
  refine ⟨rfl, ?_, ?_⟩
  · intro hw
    simp [currentW, pilCrop, cropBoxOf, hw]
  · intro hh
    simp [currentH, pilCrop, cropBoxOf, hh]

/-- C6 witness: the amended theorem applied at the concrete loaded state and
the concrete zero-width in-bounds rectangle. -/
theorem C6_witness :
    (cropImage ⟨100, 100, 100, 100⟩ ⟨10, 10, 0, 5⟩ (openImage img100 initState)).2
      = true :=
  (C6_zero_size_crop ⟨100, 100, 100, 100⟩ ⟨10, 10, 0, 5⟩
    (openImage img100 initState) img100 rfl
    (by unfold cropReject vx vy offX offY; push_cast; norm_num)).1

/-- C7: advanced_rotate with a positive 90-degree angle (the source negates
the angle before PIL's counter-clockwise-positive, canvas-expanding rotate)
rotates visually clockwise: on every 100 × 100 image the output is
100 × 100 and output pixel (0, 0) equals input pixel (0, 99). -/
theorem C7_rotate90_clockwise (img : Img) (hw : img.w = 100)
    (hh : img.h = 100) :
    (advancedRotate 90 img).w = 100 ∧ (advancedRotate 90 img).h = 100 ∧
    (advancedRotate 90 img).pix 0 0 = img.pix 0 99 := by
  have hq : advancedRotate 90 img = rotCW90 img := by
    unfold advancedRotate pilRotateQuarter
    norm_num
  rw [hq]
  unfold rotCW90
  refine ⟨hh, hw, ?_⟩
  rw [hh]

/-- C7 witness: the rotation theorem applied at the concrete 100 × 100
image whose pixels encode their coordinates. -/
theorem C7_witness :
    (advancedRotate 90 img100).w = 100 ∧ (advancedRotate 90 img100).h = 100 ∧
    (advancedRotate 90 img100).pix 0 0 = img100.pix 0 99 :=
  C7_rotate90_clockwise img100 rfl rfl

/-- C8 counterexample: stroke rasterization does not truncate — with a
3-pixel-wide source displayed at 2 pixels (scale_x = 3/2, no centering
offset), the stroke point at viewport x = 1 is handed to the rasterizer as
the untruncated coordinate 3/2, which differs from the truncated-toward-zero
value 1 that the crop mapping would produce, refuting that the same
truncation is applied on both paths. -/
theorem C8_counterexample :
    (strokePointMap ⟨2, 2, 2, 2⟩ 3 3 1 1).1
      ≠ ((pyInt ((1 - offX ⟨2, 2, 2, 2⟩) * scX ⟨2, 2, 2, 2⟩ 3) : ℤ) : ℚ) := by
  have e : (1 - offX ⟨2, 2, 2, 2⟩) * scX ⟨2, 2, 2, 2⟩ 3 = 3 / 2 := by
    unfold offX scX
    push_cast
    norm_num
  have h1 : pyInt ((1 - offX ⟨2, 2, 2, 2⟩) * scX ⟨2, 2, 2, 2⟩ 3) = 1 := by
    rw [e]
    unfold pyInt
    rw [if_pos (by norm_num)]
    norm_num
  rw [h1]
  unfold strokePointMap offX scX
  push_cast
  norm_num

/-- C8 amended: the crop-rectangle mapping applies
scale_x = source_width / displayed_width and scale_y likewise to the
offset-corrected corners and truncates toward zero (Python int: the floor
for nonnegative values, the ceiling for negative ones) to integer pixel
indices; the stroke-path mapping applies the same offsets and scales but
passes the coordinates to the rasterizer untruncated. -/
theorem C8_truncation (g : ViewGeom) (r : RectI) (imW imH : Nat)
    (px py : ℤ) (q : ℚ) :
    (cropBoxOf g r imW imH).1 = pyInt (vx g r * scX g imW) ∧
    (0 ≤ q → ((pyInt q : ℚ) ≤ q ∧ q < pyInt q + 1)) ∧
    (q < 0 → (q ≤ (pyInt q : ℚ) ∧ (pyInt q : ℚ) < q + 1)) ∧
    strokePointMap g imW imH px py
      = (((px : ℚ) - offX g) * scX g imW, ((py : ℚ) - offY g) * scY g imH) := by
  refine ⟨rfl, ?_, ?_, rfl⟩
  · intro h
    unfold pyInt
    rw [if_pos h]
    exact ⟨Int.floor_le q, by exact_mod_cast Int.lt_floor_add_one q⟩
  · intro h
    unfold pyInt
    rw [if_neg (not_le.mpr h)]
    exact ⟨Int.le_ceil q, by exact_mod_cast Int.ceil_lt_add_one q⟩

/-- C8 witness: the truncation theorem applied at the concrete geometry of
the counterexample and the concrete scaled coordinate 3/2. -/
theorem C8_witness :
    (0 : ℚ) ≤ 3 / 2 ∧
    ((pyInt (3 / 2) : ℚ) ≤ 3 / 2 ∧ (3 / 2 : ℚ) < pyInt (3 / 2) + 1) :=
  ⟨by norm_num,
   (C8_truncation ⟨2, 2, 2, 2⟩ ⟨1, 1, 1, 1⟩ 3 3 1 1 (3 / 2)).2.1 (by norm_num)⟩
